import Mathlib

/-!
Verification of the benchmark measurement harness of this repository:
the class `Benchmark` in `common.ts` (methods `formatBytes` and
`measurePerformance`), shallowly embedded in Lean.

Modelling conventions:
* JS numbers are modelled as rationals (`ℚ`).  Every arithmetic step the
  harness performs on them (division by `1024`, by `1_000_000`, by the
  iteration count, `toFixed(2)`) is exact on the dyadic-or-small values
  involved, so the rational model agrees with IEEE doubles on all inputs
  considered here.
* The mutable closure environment of the supplied operation `fn` is an
  explicit state `σ`; a throwing operation returns `Except.error` together
  with the state it leaves behind (in JS the closure state survives the
  throw).
* `console.log` output is collected as a list of emitted lines.
* `process.memoryUsage()` and `process.hrtime.bigint()` are external
  collaborators; one call to `measurePerformance` observes two memory
  snapshots and two timestamps, packaged as an `Env`.
-/

namespace Benchmark

/-- Floor of a rational, as used by the decimal rendering of `toFixed`. -/
def qfloor (q : ℚ) : ℤ := Int.floor q

/-- Two-digit zero-padded rendering of an integer in `[0, 100)`. -/
def padTwo (m : ℤ) : String :=
  if m < 10 then "0" ++ toString m else toString m

/-- Rendering of a nonnegative rational with exactly two decimal digits,
rounding to nearest with ties upward, as `Number.prototype.toFixed(2)` does
on the magnitude. -/
def toFixed2Abs (q : ℚ) : String :=
  toString (qfloor (q * 100 + 1/2) / 100) ++ "." ++ padTwo (qfloor (q * 100 + 1/2) % 100)

/-- JS `x.toFixed(2)`: negative numbers are rendered as a minus sign followed
by the rendering of the magnitude. -/
def toFixed2 (q : ℚ) : String :=
  if q < 0 then "-" ++ toFixed2Abs (-q) else toFixed2Abs q

/-- The unit table of `formatBytes`: `const units = ["B", "KB", "MB", "GB"]`. -/
def units : List String := ["B", "KB", "MB", "GB"]

/-- The scaling loop of `formatBytes`:
`while (size >= 1024 && unitIndex < units.length - 1) { size /= 1024; unitIndex++; }`.
The loop guard `unitIndex < 3` is represented by the fuel `3 - unitIndex`,
so `scaleGo size idx fuel` is the loop started at `size`/`idx` with
`fuel = 3 - idx` steps still allowed. -/
def scaleGo : ℚ → Nat → Nat → ℚ × Nat
  | size, idx, 0 => (size, idx)
  | size, idx, fuel + 1 =>
    if 1024 ≤ size then scaleGo (size / 1024) (idx + 1) fuel else (size, idx)

/-- The `(size, unitIndex)` pair computed by `Benchmark.formatBytes` for a
given byte count: the loop run from `size = bytes`, `unitIndex = 0`. -/
def formatBytesScale (bytes : ℚ) : ℚ × Nat := scaleGo bytes 0 3

/-- `Benchmark.formatBytes`: scale, then render
`` `${size.toFixed(2)} ${units[unitIndex]}` ``. -/
def formatBytes (bytes : ℚ) : String :=
  toFixed2 (formatBytesScale bytes).1 ++ " " ++ units.getD (formatBytesScale bytes).2 ""

/-- One `process.memoryUsage()` snapshot: the three counters the harness
reads (bytes, as integers). -/
structure MemoryUsage where
  heapUsed : ℤ
  heapTotal : ℤ
  rss : ℤ
deriving DecidableEq

/-- The values the external collaborators return during one call to
`measurePerformance`: the initial and final memory snapshots and the
start and end `process.hrtime.bigint()` timestamps (nanoseconds). -/
structure Env where
  memBefore : MemoryUsage
  startTime : ℤ
  endTime : ℤ
  memAfter : MemoryUsage
deriving DecidableEq

/-- The loop `for (let i = 0; i < iterations; i++) { fn(); }` over an
operation with closure state `σ`: runs `fn` at most `n` times, stopping with
the propagated error (and the state `fn` left behind) if an iteration
throws. -/
def runLoop {σ ε : Type} (fn : σ → Except ε Unit × σ) : Nat → σ → Except ε Unit × σ
  | 0, s => (Except.ok (), s)
  | n + 1, s =>
    match fn s with
    | (Except.ok _, s1) => runLoop fn n s1
    | (Except.error e, s1) => (Except.error e, s1)

/-- An operation that never throws, given by its effect `g` on the closure
state. -/
def liftTotal {σ ε : Type} (g : σ → σ) : σ → Except ε Unit × σ :=
  fun s => (Except.ok (), g s)

/-- Instrumentation of an arbitrary operation with a call counter: the
counter is incremented on every invocation, throwing or not. -/
def instrument {σ ε : Type} (fn : σ → Except ε Unit × σ) :
    Nat × σ → Except ε Unit × (Nat × σ) :=
  fun p => ((fn p.2).1, (p.1 + 1, (fn p.2).2))

/-- An operation over a call counter that throws the error `e` on its `k`-th
invocation (incrementing the counter on entry, as a JS closure that counts
calls before throwing would). -/
def throwOnKth {ε : Type} (k : Nat) (e : ε) : Nat → Except ε Unit × Nat :=
  fun c => if c + 1 = k then (Except.error e, c + 1) else (Except.ok (), c + 1)

/-- `const duration = Number(endTime - startTime) / 1_000_000` : the elapsed
duration in milliseconds. -/
def totalDuration (env : Env) : ℚ :=
  ((env.endTime - env.startTime : ℤ) : ℚ) / 1000000

/-- The two lines logged before the loop runs. -/
def headerLines (name : String) (iterations : ℤ) : List String :=
  ["\nBenchmarking: " ++ name,
   "Iterations: " ++ toString iterations]

/-- The seven lines logged after the loop: results, mean, and the three
memory deltas pushed through `formatBytes`. -/
def resultLines (iterations : ℤ) (env : Env) : List String :=
  ["\nResults:",
   "Total Time: " ++ toFixed2 (totalDuration env) ++ "ms",
   "Average Time per Operation: " ++ toFixed2 (totalDuration env / (iterations : ℚ)) ++ "ms",
   "\nMemory Usage:",
   "Heap Used: " ++ formatBytes ((env.memAfter.heapUsed - env.memBefore.heapUsed : ℤ) : ℚ),
   "Heap Total: " ++ formatBytes ((env.memAfter.heapTotal - env.memBefore.heapTotal : ℤ) : ℚ),
   "RSS: " ++ formatBytes ((env.memAfter.rss - env.memBefore.rss : ℤ) : ℚ)]

/-- `Benchmark.measurePerformance(name, iterations, fn)` under the
environment `env` and initial closure state `s0`: logs the header, runs the
loop (the `for` loop executes `fn` once for each `0 ≤ i < iterations`, i.e.
`iterations.toNat` times), and, if no iteration threw, logs the results.
A propagated error leaves only the header logged.  Returns the emitted
lines together with the outcome and the final closure state. -/
def measurePerformance {σ ε : Type} (name : String) (iterations : ℤ)
    (fn : σ → Except ε Unit × σ) (env : Env) (s0 : σ) :
    List String × (Except ε Unit × σ) :=
  match runLoop fn iterations.toNat s0 with
  | (Except.error e, s1) => (headerLines name iterations, (Except.error e, s1))
  | (Except.ok _, s1) =>
    (headerLines name iterations ++ resultLines iterations env, (Except.ok (), s1))

/-- The observable world a call runs in: the stdout stream, the operation's
closure state, and all other program state (which the harness never
touches). -/
structure World (σ τ : Type) where
  stdout : List String
  user : σ
  other : τ

/-- `measurePerformance` as a transformer of the observable world: its only
effects are appending the emitted lines to stdout and running `fn` on the
closure state.  `Benchmark` is a class with no fields, so there is no
harness-owned state to thread. -/
def measureWorld {σ τ ε : Type} (name : String) (iterations : ℤ)
    (fn : σ → Except ε Unit × σ) (env : Env) (w : World σ τ) :
    Except ε Unit × World σ τ :=
  ((measurePerformance name iterations fn env w.user).2.1,
   ⟨w.stdout ++ (measurePerformance name iterations fn env w.user).1,
    (measurePerformance name iterations fn env w.user).2.2,
    w.other⟩)

/-- Events observed while benchmarking an asynchronous operation:
`start i` is the synchronous entry of invocation `i` (the part of an async
function body before its first suspension point), `complete i` is the run of
its deferred continuation. -/
inductive Ev where
  | start (i : Nat)
  | complete (i : Nat)
deriving DecidableEq, BEq

/-- The synchronous phase of the harness loop for an asynchronous operation:
the source loop body is `fn();` with no `await` (`fn` is typed
`() => void`), so each of the `n` calls runs the operation's synchronous
entry immediately and schedules its continuation on the host's FIFO
microtask queue, and the loop proceeds without waiting.  `syncCalls n i`
performs invocations `i, i+1, ...`, extending the event trace and the
queue. -/
def syncCalls : Nat → Nat → List Ev × List Nat → List Ev × List Nat
  | 0, _, acc => acc
  | n + 1, i, (tr, q) => syncCalls n (i + 1) (tr ++ [Ev.start i], q ++ [i])

/-- The host drains the microtask queue in FIFO order once the synchronous
code (the loop and the remainder of `measurePerformance`, which contains no
`await`) has returned. -/
def drainMicrotasks : List Nat → List Ev → List Ev
  | [], tr => tr
  | i :: rest, tr => drainMicrotasks rest (tr ++ [Ev.complete i])

/-- The complete event trace of a run of the harness loop over an
asynchronous operation with `N` iterations: synchronous phase, then the
deferred continuations. -/
def asyncRunTrace (N : Nat) : List Ev :=
  drainMicrotasks (syncCalls N 1 ([], [])).2 (syncCalls N 1 ([], [])).1

/-- The values recorded by a counter that an asynchronous operation
increments and records on entry: the indices of the `start` events in trace
order. -/
def startsRecorded (t : List Ev) : List Nat :=
  t.filterMap fun e =>
    match e with
    | Ev.start i => some i
    | Ev.complete _ => none

/-- A sample collaborator environment for concrete runs: 5 ms elapsed, each
memory counter grew by the amounts shown. -/
def sampleEnv : Env :=
  { memBefore := { heapUsed := 1000, heapTotal := 2000, rss := 3000 }
    startTime := 0
    endTime := 5000000
    memAfter := { heapUsed := 1500, heapTotal := 2000, rss := 2500 } }

/-- The loop over an operation that never throws performs the n-fold
sequential composition of its effect on the closure state. -/
lemma runLoop_liftTotal {σ ε : Type} (g : σ → σ) (n : Nat) :
    ∀ s : σ, runLoop (liftTotal g : σ → Except ε Unit × σ) n s = (Except.ok (), g^[n] s) := by
  induction n with
  | zero => intro s; rfl
  | succ n ih =>
    intro s
    rw [show runLoop (liftTotal g : σ → Except ε Unit × σ) (n + 1) s
          = runLoop (liftTotal g) n (g s) from rfl]
    rw [ih (g s), Function.iterate_succ_apply]

/-- Instrumenting a non-throwing operation is the non-throwing operation
that additionally steps the counter. -/
lemma instrument_liftTotal {σ ε : Type} (g : σ → σ) :
    instrument (liftTotal g : σ → Except ε Unit × σ)
      = (liftTotal (fun p : Nat × σ => (p.1 + 1, g p.2)) :
          Nat × σ → Except ε Unit × (Nat × σ)) := rfl

/-- Iterating the counter-and-effect step adds n to the counter. -/
lemma countStep_iterate {σ : Type} (g : σ → σ) (n : Nat) :
    ∀ (c : Nat) (s : σ),
      (fun p : Nat × σ => (p.1 + 1, g p.2))^[n] (c, s) = (c + n, g^[n] s) := by
  induction n with
  | zero => intro c s; simp
  | succ n ih =>
    intro c s
    rw [Function.iterate_succ_apply, Function.iterate_succ_apply]
    have h := ih (c + 1) (g s)
    simp only at h
    rw [h]
    refine Prod.ext ?_ rfl
    omega

/-- C1: for every iteration count N ≥ 1 and every (non-throwing) operation,
measurePerformance invokes the operation exactly N times, one after another
in loop order: the final closure state is the N-fold sequential composition
of the operation's effect, and an instrumenting call counter ends at
exactly N. -/
theorem measurePerformance_invokes_exactly_N {σ : Type} (name : String) (N : ℤ)
    (hN : 1 ≤ N) (g : σ → σ) (s : σ) (env : Env) :
    measurePerformance name N (liftTotal g : σ → Except String Unit × σ) env s
        = (headerLines name N ++ resultLines N env, (Except.ok (), g^[N.toNat] s))
    ∧ (measurePerformance name N
          (instrument (liftTotal g : σ → Except String Unit × σ)) env (0, s)).2.2.1
        = N.toNat := by
  constructor
  · rw [measurePerformance, runLoop_liftTotal g N.toNat s]
  · rw [measurePerformance, instrument_liftTotal, runLoop_liftTotal _ N.toNat (0, s),
        countStep_iterate g N.toNat 0 s]
    simp

/-- Witness for C1 at N = 3 with the successor operation on a counter
state. -/
theorem measurePerformance_invokes_exactly_N_witness :
    (1 : ℤ) ≤ 3
    ∧ (measurePerformance "w" 3 (liftTotal Nat.succ : ℕ → Except String Unit × ℕ) sampleEnv 0
          = (headerLines "w" 3 ++ resultLines 3 sampleEnv,
             (Except.ok (), Nat.succ^[(3 : ℤ).toNat] 0))
        ∧ (measurePerformance "w" 3
              (instrument (liftTotal Nat.succ : ℕ → Except String Unit × ℕ))
              sampleEnv (0, 0)).2.2.1 = (3 : ℤ).toNat) :=
  ⟨by decide, measurePerformance_invokes_exactly_N "w" 3 (by decide) Nat.succ 0 sampleEnv⟩

/-- Running the loop over an operation that throws on its k-th call, from a
counter c with c < k and at least k - c iterations allowed, stops with the
error and counter k. -/
lemma runLoop_throwOnKth {ε : Type} (e : ε) (k : Nat) :
    ∀ (n c : Nat), c < k → k ≤ c + n →
      runLoop (throwOnKth k e) n c = (Except.error e, k) := by
  intro n
  induction n with
  | zero => intro c h1 h2; omega
  | succ n ih =>
    intro c h1 h2
    by_cases hc : c + 1 = k
    · simp [runLoop, throwOnKth, hc]
    · have h1A : c + 1 < k := by omega
      have h2A : k ≤ (c + 1) + n := by omega
      simpa [runLoop, throwOnKth, hc] using ih (c + 1) h1A h2A

/-- C4: if the operation throws on its k-th invocation (1 ≤ k ≤ N), the
same error propagates unwrapped to the caller, the operation was invoked
exactly k times (its entry counter reads k), the remaining iterations never
run, and only the header was logged. -/
theorem measurePerformance_error_propagates (name : String) (N : ℤ) (k : Nat)
    (e : String) (env : Env) (hk : 1 ≤ k) (hkN : (k : ℤ) ≤ N) :
    measurePerformance name N (throwOnKth k e) env 0
      = (headerLines name N, (Except.error e, k)) := by
  rw [measurePerformance, runLoop_throwOnKth e k N.toNat 0 (by omega) (by omega)]

/-- Witness for C4: 5 iterations, a throw on the 3rd call. -/
theorem measurePerformance_error_propagates_witness :
    1 ≤ 3 ∧ ((3 : Nat) : ℤ) ≤ 5
    ∧ measurePerformance "w" 5 (throwOnKth 3 "boom") sampleEnv 0
        = (headerLines "w" 5, (Except.error "boom", 3)) :=
  ⟨by decide, by decide,
   measurePerformance_error_propagates "w" 5 3 "boom" sampleEnv (by decide) (by decide)⟩

/-- C7: for every N ≥ 1 (over an operation that completes), the reported
mean duration is exactly the reported total duration divided by N, and the
total is the end timestamp minus the start timestamp converted to
milliseconds. -/
theorem measurePerformance_mean_eq_total_div_N {σ : Type} (name : String) (N : ℤ)
    (hN : 1 ≤ N) (g : σ → σ) (s : σ) (env : Env) :
    ("Total Time: " ++ toFixed2 (totalDuration env) ++ "ms")
        ∈ (measurePerformance name N (liftTotal g : σ → Except String Unit × σ) env s).1
    ∧ ("Average Time per Operation: " ++ toFixed2 (totalDuration env / (N : ℚ)) ++ "ms")
        ∈ (measurePerformance name N (liftTotal g : σ → Except String Unit × σ) env s).1
    ∧ totalDuration env = ((env.endTime - env.startTime : ℤ) : ℚ) / 1000000 := by
  refine ⟨?_, ?_, rfl⟩ <;>
    simp [measurePerformance, runLoop_liftTotal, headerLines, resultLines]

/-- Witness for C7 at N = 2 over the identity operation. -/
theorem measurePerformance_mean_eq_total_div_N_witness :
    (1 : ℤ) ≤ 2
    ∧ (("Total Time: " ++ toFixed2 (totalDuration sampleEnv) ++ "ms")
          ∈ (measurePerformance "w" 2 (liftTotal id : ℕ → Except String Unit × ℕ)
              sampleEnv 0).1
        ∧ ("Average Time per Operation: "
              ++ toFixed2 (totalDuration sampleEnv / ((2 : ℤ) : ℚ)) ++ "ms")
          ∈ (measurePerformance "w" 2 (liftTotal id : ℕ → Except String Unit × ℕ)
              sampleEnv 0).1
        ∧ totalDuration sampleEnv
          = ((sampleEnv.endTime - sampleEnv.startTime : ℤ) : ℚ) / 1000000) :=
  ⟨by decide, measurePerformance_mean_eq_total_div_N "w" 2 (by decide) id 0 sampleEnv⟩

/-- C8: each reported memory delta is exactly the after-run snapshot
counter minus the before-run snapshot counter, a signed difference handed
to the humanizer with no additional scaling. -/
theorem measurePerformance_memory_deltas {σ ε : Type} (name : String) (N : ℤ)
    (fn : σ → Except ε Unit × σ) (env : Env) (s s1 : σ)
    (h : runLoop fn N.toNat s = (Except.ok (), s1)) :
    ("Heap Used: " ++ formatBytes ((env.memAfter.heapUsed - env.memBefore.heapUsed : ℤ) : ℚ))
        ∈ (measurePerformance name N fn env s).1
    ∧ ("Heap Total: "
          ++ formatBytes ((env.memAfter.heapTotal - env.memBefore.heapTotal : ℤ) : ℚ))
        ∈ (measurePerformance name N fn env s).1
    ∧ ("RSS: " ++ formatBytes ((env.memAfter.rss - env.memBefore.rss : ℤ) : ℚ))
        ∈ (measurePerformance name N fn env s).1 := by
  refine ⟨?_, ?_, ?_⟩ <;> simp [measurePerformance, h, headerLines, resultLines]

/-- Witness for C8 at N = 1 over the identity operation. -/
theorem measurePerformance_memory_deltas_witness :
    runLoop (liftTotal id : ℕ → Except String Unit × ℕ) (1 : ℤ).toNat 0 = (Except.ok (), 0)
    ∧ (("Heap Used: "
          ++ formatBytes ((sampleEnv.memAfter.heapUsed - sampleEnv.memBefore.heapUsed : ℤ) : ℚ))
          ∈ (measurePerformance "w" 1 (liftTotal id : ℕ → Except String Unit × ℕ)
              sampleEnv 0).1
        ∧ ("Heap Total: "
            ++ formatBytes ((sampleEnv.memAfter.heapTotal - sampleEnv.memBefore.heapTotal : ℤ) : ℚ))
          ∈ (measurePerformance "w" 1 (liftTotal id : ℕ → Except String Unit × ℕ)
              sampleEnv 0).1
        ∧ ("RSS: " ++ formatBytes ((sampleEnv.memAfter.rss - sampleEnv.memBefore.rss : ℤ) : ℚ))
          ∈ (measurePerformance "w" 1 (liftTotal id : ℕ → Except String Unit × ℕ)
              sampleEnv 0).1) :=
  ⟨rfl, measurePerformance_memory_deltas "w" 1 (liftTotal id) sampleEnv 0 0 rfl⟩

/-- C9: a run writes exclusively to stdout, appending the emitted lines,
and mutates no state beyond the operation's own closure state; the harness
retains no state of its own, so the run's outcome, its appended lines, and
the resulting closure state depend only on the arguments and the closure
state — never on the surrounding stdout or other program state, and in
particular not on any earlier (possibly failed) run. -/
theorem measureWorld_frame {σ τ τ2 : Type} (name : String) (N : ℤ)
    (fn : σ → Except String Unit × σ) (env : Env) (w : World σ τ)
    (out2 : List String) (oth2 : τ2) :
    (measureWorld name N fn env w).2.other = w.other
    ∧ (measureWorld name N fn env w).2.stdout
        = w.stdout ++ (measurePerformance name N fn env w.user).1
    ∧ (measureWorld name N fn env w).2.user = (runLoop fn N.toNat w.user).2
    ∧ (measureWorld name N fn env (⟨out2, w.user, oth2⟩ : World σ τ2)).1
        = (measureWorld name N fn env w).1
    ∧ (measureWorld name N fn env (⟨out2, w.user, oth2⟩ : World σ τ2)).2.user
        = (measureWorld name N fn env w).2.user
    ∧ (measureWorld name N fn env (⟨out2, w.user, oth2⟩ : World σ τ2)).2.stdout
        = out2 ++ (measurePerformance name N fn env w.user).1 := by
  have huser : ∀ (τ3 : Type) (w3 : World σ τ3),
      (measureWorld name N fn env w3).2.user = (runLoop fn N.toNat w3.user).2 := by
    intro τ3 w3
    rcases h : runLoop fn N.toNat w3.user with ⟨r, s1⟩
    cases r <;> simp [measureWorld, measurePerformance, h]
  refine ⟨rfl, rfl, huser τ w, rfl, ?_, rfl⟩
  rw [huser τ2 ⟨out2, w.user, oth2⟩, huser τ w]

/-- C10: for every iteration count ≤ 0 the call raises no error and never
invokes the operation — the loop body runs zero times (the instrumenting
counter stays 0 and the closure state is untouched) — yet the full report
is still emitted, its mean line dividing the elapsed total by the
non-positive iteration count. -/
theorem measurePerformance_nonpositive_iterations {σ : Type} (name : String) (N : ℤ)
    (hN : N ≤ 0) (fn : σ → Except String Unit × σ) (env : Env) (s : σ) :
    measurePerformance name N (instrument fn) env (0, s)
        = (headerLines name N ++ resultLines N env, (Except.ok (), (0, s)))
    ∧ ("Average Time per Operation: " ++ toFixed2 (totalDuration env / (N : ℚ)) ++ "ms")
        ∈ (measurePerformance name N (instrument fn) env (0, s)).1 := by
  have h0 : N.toNat = 0 := by omega
  have hrun : runLoop (instrument fn) N.toNat (0, s) = (Except.ok (), (0, s)) := by
    rw [h0]; rfl
  constructor
  · rw [measurePerformance, hrun]
  · rw [measurePerformance, hrun]
    simp [headerLines, resultLines]

/-- Witness for C10 at N = 0. -/
theorem measurePerformance_nonpositive_iterations_witness :
    (0 : ℤ) ≤ 0
    ∧ (measurePerformance "x" 0 (instrument (liftTotal id : ℕ → Except String Unit × ℕ))
            sampleEnv (0, 0)
          = (headerLines "x" 0 ++ resultLines 0 sampleEnv, (Except.ok (), (0, 0)))
        ∧ ("Average Time per Operation: "
              ++ toFixed2 (totalDuration sampleEnv / ((0 : ℤ) : ℚ)) ++ "ms")
          ∈ (measurePerformance "x" 0
              (instrument (liftTotal id : ℕ → Except String Unit × ℕ)) sampleEnv (0, 0)).1) :=
  ⟨by decide,
   measurePerformance_nonpositive_iterations "x" 0 (by decide) (liftTotal id) sampleEnv 0⟩

/-- C3 evaluation at the failing input: measurePerformance with label "x"
and iteration count 0 performs no invalid-argument check — the call
completes without error, the operation is never invoked (its counter stays
0), and the full 9-line report is still emitted. -/
theorem measurePerformance_zero_iterations_unguarded :
    (measurePerformance "x" 0 (instrument (liftTotal id : ℕ → Except String Unit × ℕ))
        sampleEnv (0, 0)).2 = (Except.ok (), (0, 0))
    ∧ ((measurePerformance "x" 0 (instrument (liftTotal id : ℕ → Except String Unit × ℕ))
        sampleEnv (0, 0)).1).length = 9 :=
  ⟨rfl, rfl⟩

/-- Evaluation of the two-decimal rendering of a nonnegative value, given
the floor n of 100 q + 1/2. -/
lemma toFixed2_eval (q : ℚ) (n : ℤ) (h0 : ¬ q < 0)
    (h1 : (n : ℚ) ≤ q * 100 + 1/2) (h2 : q * 100 + 1/2 < n + 1) :
    toFixed2 q = toString (n / 100) ++ "." ++ padTwo (n % 100) := by
  have hfl : qfloor (q * 100 + 1/2) = n := by
    rw [qfloor]; exact Int.floor_eq_iff.mpr ⟨h1, h2⟩
  rw [toFixed2, if_neg h0, toFixed2Abs, hfl]

/-- Evaluation of the two-decimal rendering of a negative value, given the
floor n of 100 |q| + 1/2. -/
lemma toFixed2_eval_neg (q : ℚ) (n : ℤ) (h0 : q < 0)
    (h1 : (n : ℚ) ≤ -q * 100 + 1/2) (h2 : -q * 100 + 1/2 < n + 1) :
    toFixed2 q = "-" ++ (toString (n / 100) ++ "." ++ padTwo (n % 100)) := by
  have hfl : qfloor (-q * 100 + 1/2) = n := by
    rw [qfloor]; exact Int.floor_eq_iff.mpr ⟨h1, h2⟩
  rw [toFixed2, if_pos h0, toFixed2Abs, hfl]

lemma formatBytesScale_zero : formatBytesScale 0 = (0, 0) := by
  norm_num [formatBytesScale, scaleGo]

lemma formatBytesScale_1024 : formatBytesScale 1024 = (1, 1) := by
  norm_num [formatBytesScale, scaleGo]

lemma formatBytesScale_1536 : formatBytesScale 1536 = (3/2, 1) := by
  norm_num [formatBytesScale, scaleGo]

lemma formatBytesScale_1048576 : formatBytesScale 1048576 = (1, 2) := by
  norm_num [formatBytesScale, scaleGo]

lemma formatBytes_zero : formatBytes 0 = "0.00 B" := by
  rw [formatBytes, formatBytesScale_zero]
  show toFixed2 0 ++ " " ++ units.getD 0 "" = "0.00 B"
  rw [toFixed2_eval 0 0 (by norm_num) (by norm_num) (by norm_num)]
  rfl

lemma formatBytes_1024 : formatBytes 1024 = "1.00 KB" := by
  rw [formatBytes, formatBytesScale_1024]
  show toFixed2 1 ++ " " ++ units.getD 1 "" = "1.00 KB"
  rw [toFixed2_eval 1 100 (by norm_num) (by norm_num) (by norm_num)]
  rfl

lemma formatBytes_1536 : formatBytes 1536 = "1.50 KB" := by
  rw [formatBytes, formatBytesScale_1536]
  show toFixed2 (3/2) ++ " " ++ units.getD 1 "" = "1.50 KB"
  rw [toFixed2_eval (3/2) 150 (by norm_num) (by norm_num) (by norm_num)]
  rfl

lemma formatBytes_1048576 : formatBytes 1048576 = "1.00 MB" := by
  rw [formatBytes, formatBytesScale_1048576]
  show toFixed2 1 ++ " " ++ units.getD 2 "" = "1.00 MB"
  rw [toFixed2_eval 1 100 (by norm_num) (by norm_num) (by norm_num)]
  rfl

/-- The four-way case analysis of the scaling loop, fully unrolled. -/
lemma formatBytesScale_cases (b : ℚ) :
    (¬ 1024 ≤ b ∧ formatBytesScale b = (b, 0))
    ∨ (1024 ≤ b ∧ ¬ 1024 ≤ b / 1024 ∧ formatBytesScale b = (b / 1024, 1))
    ∨ (1024 ≤ b ∧ 1024 ≤ b / 1024 ∧ ¬ 1024 ≤ b / 1024 / 1024
        ∧ formatBytesScale b = (b / 1024 / 1024, 2))
    ∨ (1024 ≤ b ∧ 1024 ≤ b / 1024 ∧ 1024 ≤ b / 1024 / 1024
        ∧ formatBytesScale b = (b / 1024 / 1024 / 1024, 3)) := by
  by_cases h1 : 1024 ≤ b
  · by_cases h2 : 1024 ≤ b / 1024
    · by_cases h3 : 1024 ≤ b / 1024 / 1024
      · exact Or.inr (Or.inr (Or.inr
          ⟨h1, h2, h3, by simp [formatBytesScale, scaleGo, h1, h2, h3]⟩))
      · exact Or.inr (Or.inr (Or.inl
          ⟨h1, h2, h3, by simp [formatBytesScale, scaleGo, h1, h2, h3]⟩))
    · exact Or.inr (Or.inl ⟨h1, h2, by simp [formatBytesScale, scaleGo, h1, h2]⟩)
  · exact Or.inl ⟨h1, by simp [formatBytesScale, scaleGo, h1]⟩

/-- C5: formatBytes scales by 1024 at most three times, stopping at the
first unit whose scaled value is below 1024 (so the rendered size is the
byte count divided by 1024 to the chosen unit's power, below 1024 unless
the GB cap was hit, and every smaller unit would have shown at least 1024);
every value of at least 1024^3 is rendered in GB with no further unit, and
the rendering carries two decimal digits plus the unit suffix, giving
"0.00 B", "1.00 KB", "1.50 KB" and "1.00 MB" on 0, 1024, 1536 and
1048576. -/
theorem formatBytes_unit_selection (b : ℚ) (hb : 0 ≤ b) :
    formatBytes 0 = "0.00 B" ∧ formatBytes 1024 = "1.00 KB"
    ∧ formatBytes 1536 = "1.50 KB" ∧ formatBytes 1048576 = "1.00 MB"
    ∧ (formatBytesScale b).1 = b / 1024 ^ (formatBytesScale b).2
    ∧ (formatBytesScale b).2 ≤ 3
    ∧ ((formatBytesScale b).2 < 3 → (formatBytesScale b).1 < 1024)
    ∧ (∀ j, j < (formatBytesScale b).2 → 1024 ≤ b / 1024 ^ j)
    ∧ (1024 ^ 3 ≤ b → (formatBytesScale b).2 = 3
        ∧ units.getD (formatBytesScale b).2 "" = "GB") := by
  obtain ⟨h1, hs⟩ | ⟨h1, h2, hs⟩ | ⟨h1, h2, h3, hs⟩ | ⟨h1, h2, h3, hs⟩ :=
    formatBytesScale_cases b
  · refine ⟨formatBytes_zero, formatBytes_1024, formatBytes_1536, formatBytes_1048576,
      ?_, ?_, ?_, ?_, ?_⟩
    · rw [hs]; simp
    · rw [hs]; norm_num
    · rw [hs]; intro _; simpa using not_le.mp h1
    · rw [hs]; intro j hj; simp at hj
    · intro hb3
      exact absurd (le_trans (by norm_num : (1024 : ℚ) ≤ 1024 ^ 3) hb3) h1
  · refine ⟨formatBytes_zero, formatBytes_1024, formatBytes_1536, formatBytes_1048576,
      ?_, ?_, ?_, ?_, ?_⟩
    · rw [hs]; show b / 1024 = b / 1024 ^ 1; rw [pow_one]
    · rw [hs]; norm_num
    · rw [hs]; intro _; simpa using not_le.mp h2
    · rw [hs]; intro j hj
      have hj2 : j < 1 := hj
      obtain rfl : j = 0 := by omega
      simpa using h1
    · intro hb3
      exfalso
      apply h2
      rw [le_div_iff₀ (by norm_num : (0 : ℚ) < 1024)]
      norm_num at hb3 ⊢
      linarith
  · refine ⟨formatBytes_zero, formatBytes_1024, formatBytes_1536, formatBytes_1048576,
      ?_, ?_, ?_, ?_, ?_⟩
    · rw [hs]; show b / 1024 / 1024 = b / 1024 ^ 2; rw [div_div]; norm_num
    · rw [hs]; norm_num
    · rw [hs]; intro _; simpa using not_le.mp h3
    · rw [hs]; intro j hj
      have hj2 : j < 2 := hj
      have hcase : j = 0 ∨ j = 1 := by omega
      rcases hcase with rfl | rfl
      · simpa using h1
      · simpa using h2
    · intro hb3
      exfalso
      apply h3
      rw [div_div, le_div_iff₀ (by norm_num : (0 : ℚ) < 1024 * 1024)]
      norm_num at hb3 ⊢
      linarith
  · refine ⟨formatBytes_zero, formatBytes_1024, formatBytes_1536, formatBytes_1048576,
      ?_, ?_, ?_, ?_, ?_⟩
    · rw [hs]; show b / 1024 / 1024 / 1024 = b / 1024 ^ 3
      rw [div_div, div_div]; norm_num
    · rw [hs]
    · rw [hs]; intro h; simp at h
    · rw [hs]; intro j hj
      have hj2 : j < 3 := hj
      have hcase : j = 0 ∨ j = 1 ∨ j = 2 := by omega
      rcases hcase with rfl | rfl | rfl
      · simpa using h1
      · simpa using h2
      · show 1024 ≤ b / 1024 ^ 2
        rw [show (1024 : ℚ) ^ 2 = 1024 * 1024 by norm_num, ← div_div]
        exact h3
    · rw [hs]; intro _; exact ⟨rfl, rfl⟩

/-- Witness for C5 at b = 1024^3. -/
theorem formatBytes_unit_selection_witness :
    (0 : ℚ) ≤ 1024 ^ 3
    ∧ (formatBytes 0 = "0.00 B" ∧ formatBytes 1024 = "1.00 KB"
        ∧ formatBytes 1536 = "1.50 KB" ∧ formatBytes 1048576 = "1.00 MB"
        ∧ (formatBytesScale (1024 ^ 3)).1 = 1024 ^ 3 / 1024 ^ (formatBytesScale (1024 ^ 3)).2
        ∧ (formatBytesScale (1024 ^ 3)).2 ≤ 3
        ∧ ((formatBytesScale (1024 ^ 3)).2 < 3 → (formatBytesScale (1024 ^ 3)).1 < 1024)
        ∧ (∀ j, j < (formatBytesScale (1024 ^ 3)).2 → (1024 : ℚ) ≤ (1024 : ℚ) ^ 3 / 1024 ^ j)
        ∧ (1024 ^ 3 ≤ (1024 ^ 3 : ℚ) → (formatBytesScale (1024 ^ 3)).2 = 3
            ∧ units.getD (formatBytesScale (1024 ^ 3)).2 "" = "GB")) :=
  ⟨by norm_num, formatBytes_unit_selection (1024 ^ 3) (by norm_num)⟩

lemma formatBytesScale_neg1048576 : formatBytesScale (-1048576) = (-1048576, 0) := by
  norm_num [formatBytesScale, scaleGo]

lemma formatBytes_neg1048576 : formatBytes (-1048576) = "-1048576.00 B" := by
  rw [formatBytes, formatBytesScale_neg1048576]
  show toFixed2 (-1048576) ++ " " ++ units.getD 0 "" = "-1048576.00 B"
  rw [toFixed2_eval_neg (-1048576) 104857600 (by norm_num) (by norm_num) (by norm_num)]
  rfl

/-- C6 counterexample: formatBytes leaves -1048576 unscaled in bytes — the
loop guard requires the size to be at least 1024, which no negative number
is — so the output is "-1048576.00 B" with unit index 0 (unit "B"), not the
MB rendering the claim requires. -/
theorem formatBytes_negative_counterexample :
    formatBytes (-1048576) = "-1048576.00 B"
    ∧ (formatBytesScale (-1048576)).2 = 0
    ∧ units.getD (formatBytesScale (-1048576)).2 "" = "B"
    ∧ formatBytes (-1048576) ≠ "-1.00 MB" := by
  refine ⟨formatBytes_neg1048576, ?_, ?_, ?_⟩
  · rw [formatBytesScale_neg1048576]
  · rw [formatBytesScale_neg1048576]
    rfl
  · rw [formatBytes_neg1048576]; decide

/-- C6 amended: a negative byte count never satisfies the scaling-loop
guard, so formatBytes applies no unit scaling to it at all: the unit stays
"B" and the output is the signed value itself rendered with two decimals —
the sign is preserved, but the magnitude-based unit selection claimed by
the spec does not happen. -/
theorem formatBytes_negative (b : ℚ) (hb : b < 0) :
    formatBytesScale b = (b, 0)
    ∧ formatBytes b = toFixed2 b ++ " " ++ "B"
    ∧ toFixed2 b = "-" ++ toFixed2Abs (-b) := by
  have h1 : ¬ 1024 ≤ b := by
    intro h
    linarith
  have hs : formatBytesScale b = (b, 0) := by
    simp [formatBytesScale, scaleGo, h1]
  refine ⟨hs, ?_, ?_⟩
  · rw [formatBytes, hs]
    rfl
  · rw [toFixed2, if_pos hb]

/-- Witness for C6 amended at b = -1048576. -/
theorem formatBytes_negative_witness :
    (-1048576 : ℚ) < 0
    ∧ (formatBytesScale (-1048576) = (-1048576, 0)
        ∧ formatBytes (-1048576) = toFixed2 (-1048576) ++ " " ++ "B"
        ∧ toFixed2 (-1048576) = "-" ++ toFixed2Abs (-(-1048576))) :=
  ⟨by norm_num, formatBytes_negative (-1048576) (by norm_num)⟩

/-- C2 evaluation at the failing input: with two iterations of an
asynchronous operation, the loop — whose body calls the operation without
awaiting it, the parameter being typed as a synchronous thunk — starts
invocation 2 before invocation 1's deferred continuation has run.  The
trace is start 1, start 2, complete 1, complete 2 (the entry-recorded
counter sequence is still [1, 2]), so completion 1 does not precede
start 2: iterations overlap. -/
theorem measurePerformance_no_await_overlap :
    asyncRunTrace 2 = [Ev.start 1, Ev.start 2, Ev.complete 1, Ev.complete 2]
    ∧ startsRecorded (asyncRunTrace 2) = [1, 2]
    ∧ ¬ ((asyncRunTrace 2).findIdx (fun e => e == Ev.complete 1)
          < (asyncRunTrace 2).findIdx (fun e => e == Ev.start 2)) := by
  decide

end Benchmark
